import Mathlib

/-!
Shallow embedding of the distributed index exchange layer of dune-istl
(src/istl/remoteindices.hh): the remote index record, the one-list and
two-list unpack merge-joins of the discovery protocol, the RemoteIndices
registry bookkeeping (rebuild, isSynced, getModifier, free, setIndexSets),
the RemoteIndexListModifier in both modes, and the CollectiveIterator.

Machine integers are modelled as Nat and Int; C++ raw pointers into the
index set are modelled as `Option IndexPair` values, where `none` stands
for a null or otherwise invalid pointer, and a dereference of such a
pointer surfaces as `none` in an `Option` returning operation.
-/

set_option maxHeartbeats 1000000

/-- Modelled from the spec: plocalindex.hh is not under src/. A parallel
local index is a dense process-local id carrying an attribute tag and a
public flag (spec sections 3 and 6). -/
structure ParallelLocalIndex where
  localId : Nat
  attr : Nat
  isPublic : Bool
  deriving DecidableEq, Repr

/-- Modelled from the spec: indexset.hh is not under src/. An index record
is a pair of a global id and a parallel local index; the index set keeps
such records strictly sorted by global id (spec section 3). -/
structure IndexPair where
  global : Nat
  localIndex : ParallelLocalIndex
  deriving DecidableEq, Repr

/-- One remote index record from remoteindices.hh: the attribute the index
has on the remote process, plus the member localIndex_, the back reference
to the companion local index record. The C++ member is a raw pointer; the
embedding uses `Option IndexPair`, with `none` standing for the null
pointer of the parameterless constructors. -/
structure RemoteIndex where
  attribute_ : Nat
  localIndex_ : Option IndexPair
  deriving DecidableEq, Repr

/-- The parameterless constructor RemoteIndex(): localIndex_(0), that is,
a null back reference. -/
def RemoteIndex.paramless : RemoteIndex :=
  { attribute_ := 0, localIndex_ := none }

/-- The attribute-only constructor RemoteIndex(attribute): localIndex_(0). -/
def RemoteIndex.ofAttribute (a : Nat) : RemoteIndex :=
  { attribute_ := a, localIndex_ := none }

/-- The full constructor RemoteIndex(attribute, local). -/
def RemoteIndex.ofAttributeAndLocal (a : Nat) (p : IndexPair) : RemoteIndex :=
  { attribute_ := a, localIndex_ := some p }

/-- localIndexPair() returns *localIndex_; dereferencing the null pointer
of the parameterless constructors is modelled as `none`. -/
def RemoteIndex.localIndexPair (r : RemoteIndex) : Option IndexPair :=
  r.localIndex_

/-- The global id of the local record a remote index refers to, when the
back reference is valid. -/
def riGlobal (r : RemoteIndex) : Option Nat :=
  r.localIndex_.map IndexPair.global

/-- Total variant of `riGlobal`, used only where a validity hypothesis
guarantees the back reference is present. -/
def riGlobalD (r : RemoteIndex) : Nat :=
  (riGlobal r).getD 0

/-- The one-list overload RemoteIndices::unpackIndices (remoteindices.hh,
lines 1062 to 1112): merge-join of the received G-sorted stream against
one local probe array. On a match a remote index record is emitted whose
attribute is the received one and whose back reference is the matching
probe entry; on a mismatch the cursor with the smaller global id advances. -/
def unpackIndicesOne : List IndexPair → List IndexPair → List RemoteIndex
  | [], _ => []
  | _ :: _, [] => []
  | index :: rtl, lp :: ltl =>
    if lp.global = index.global then
      { attribute_ := index.localIndex.attr, localIndex_ := some lp }
        :: unpackIndicesOne rtl ltl
    else if lp.global < index.global then
      unpackIndicesOne (index :: rtl) ltl
    else
      unpackIndicesOne rtl (lp :: ltl)
  termination_by r l => r.length + l.length

/-- The index-advance loops of the two-list unpack (remoteindices.hh,
lines 1139 to 1143): starting from i, advance while the probe entry at the
current position has a global id strictly below g. -/
def advanceIdx (l : List IndexPair) (g : Nat) (i : Nat) : Nat :=
  match h : l.get? i with
  | some p => if p.global < g then advanceIdx l g (i + 1) else i
  | none => i
  termination_by l.length - i
  decreasing_by
    have hlt := (List.get?_eq_some.mp h).1
    omega

/-- The two-list overload RemoteIndices::unpackIndices (remoteindices.hh,
lines 1115 to 1155), used when the peer sent one merged stream while the
local source and target sets differ. It mirrors the source exactly,
including line 1152, which builds the receive record from
localDest[sourceIndex] even though the match was established at
localDest[destIndex]. An out-of-range probe access is modelled as a `none`
back reference. -/
def unpackIndicesTwo (localSource localDest : List IndexPair) :
    List IndexPair → Nat → Nat → List RemoteIndex × List RemoteIndex
  | [], _, _ => ([], [])
  | index :: rest, sourceIndex, destIndex =>
    if sourceIndex < localSource.length ∨ destIndex < localDest.length then
      let sourceIndex' := advanceIdx localSource index.global sourceIndex
      let destIndex' := advanceIdx localDest index.global destIndex
      let sendRec : List RemoteIndex :=
        match localSource.get? sourceIndex' with
        | some p =>
          if p.global = index.global then
            [{ attribute_ := index.localIndex.attr, localIndex_ := some p }]
          else []
        | none => []
      let recvRec : List RemoteIndex :=
        match localDest.get? destIndex' with
        | some p =>
          if p.global = index.global then
            [{ attribute_ := index.localIndex.attr,
               localIndex_ := localDest.get? sourceIndex' }]
          else []
        | none => []
      let tail := unpackIndicesTwo localSource localDest rest sourceIndex' destIndex'
      (sendRec ++ tail.1, recvRec ++ tail.2)
    else ([], [])

/-- Modelled from the spec: the companion index set (indexset.hh, not under
src/) is a sorted record sequence together with a monotone sequence number
(spec section 6). -/
structure IndexSetModel where
  pairs : List IndexPair
  seqNo : Int
  deriving DecidableEq, Repr

/-- packEntries (remoteindices.hh, lines 831 to 856): the records packed
into the outbound buffer, and equally the probe arrays retained for the
receive side, are exactly the records that are public or force-published
by ignorePublic, in index set order. -/
def packedEntries (ignorePublic : Bool) (s : IndexSetModel) : List IndexPair :=
  s.pairs.filter (fun p => ignorePublic || p.localIndex.isPublic)

/-- Hop 0 of buildRemote for distinct source and target sets
(remoteindices.hh, lines 890 to 1048): the process exchanges its packed
message with itself via Sendrecv, so the received stream carries its own
published source and target records with the twoSets flag set. The unpack
branch for a two-set message with sendTwo joins the received source stream
against the local target probe array into the receive list, and the
received target stream against the local source probe array into the send
list; the entry is inserted under remoteProc = (rank + procs - 0) mod
procs = rank unless both lists are empty. For a communicator of size one
this is the entire build. -/
def buildSelf (ignorePublic : Bool) (rank : Int)
    (source target : IndexSetModel) :
    List (Int × List RemoteIndex × List RemoteIndex) :=
  let sourcePairs := packedEntries ignorePublic source
  let destPairs := packedEntries ignorePublic target
  let receive := unpackIndicesOne sourcePairs destPairs
  let send := unpackIndicesOne destPairs sourcePairs
  if receive = [] ∧ send = [] then [] else [(rank, send, receive)]

/-- The RemoteIndices registry state (remoteindices.hh, lines 165 to 424).
The std::map from peer rank to the pair (send list, receive list) is
modelled as an association list of (rank, send block id, receive block id)
plus a store mapping block ids to list contents; distinct ids model
distinct heap allocations, and a shared id models the aliased single list
used when source and target are the same object. The field sameObject
models the pointer comparison source_ == target_. -/
structure Registry where
  source : IndexSetModel
  target : IndexSetModel
  sameObject : Bool
  sourceSeqNo_ : Int
  destSeqNo_ : Int
  publicIgnored : Bool
  firstBuild : Bool
  entries : List (Int × Nat × Nat)
  store : List (Nat × List RemoteIndex)
  nextId : Nat
  deriving DecidableEq, Repr

/-- isSynced (remoteindices.hh, lines 1202 to 1206): both cached sequence
numbers equal the current ones of their index sets. -/
def Registry.isSynced (st : Registry) : Bool :=
  st.sourceSeqNo_ == st.source.seqNo && st.destSeqNo_ == st.target.seqNo

/-- neighbours (remoteindices.hh, lines 1175 to 1179): the size of the
registry map. -/
def Registry.neighbours (st : Registry) : Nat :=
  st.entries.length

/-- The deletions one registry entry contributes during free
(remoteindices.hh, lines 1162 to 1169): a single delete when the two list
pointers coincide, otherwise one delete per list. -/
def entryIds (e : Int × Nat × Nat) : List Nat :=
  if e.2.1 = e.2.2 then [e.2.1] else [e.2.1, e.2.2]

/-- free (remoteindices.hh, lines 1157 to 1173): walks the map, deletes
each entry with the aliasing check of `entryIds`, clears the map and marks
the next build as the first. The second component is the sequence of block
ids handed to delete. -/
def Registry.free (st : Registry) : Registry × List Nat :=
  ({ st with entries := [], store := [], firstBuild := true },
   st.entries.flatMap entryIds)

/-- setIndexSets (remoteindices.hh, lines 813 to 823): frees all lists,
records the new index sets and marks the registry as never built. -/
def Registry.setIndexSets (st : Registry) (source target : IndexSetModel)
    (sameObject : Bool) : Registry × List Nat :=
  let fr := st.free
  ({ fr.1 with source := source, target := target, sameObject := sameObject,
               firstBuild := true },
   fr.2)

/-- getModifier (remoteindices.hh, lines 1208 to 1242). The seqNo caches
are set to the current sequence numbers up front. If the rank has no entry
yet: with distinct index sets a pair of two fresh lists is inserted, but
the source never refreshes the iterator `found`, so the final dereference
found->second reads through the end iterator of the map; the embedding
returns `none` for the resulting modifier. With a shared index set a
single fresh list is inserted for both slots and `found` is refreshed. The
returned value is the block id of the list the modifier is built over
(first of the pair when send, second otherwise). -/
def Registry.getModifier (send : Bool) (st : Registry) (process : Int) :
    Registry × Option Nat :=
  let st1 := { st with sourceSeqNo_ := st.source.seqNo,
                       destSeqNo_ := st.target.seqNo }
  match st1.entries.find? (fun e => e.1 == process) with
  | some e =>
    ({ st1 with firstBuild := false },
     some (if send then e.2.1 else e.2.2))
  | none =>
    if st1.sameObject = false then
      ({ st1 with
           entries := st1.entries ++ [(process, st1.nextId, st1.nextId + 1)],
           store := st1.store ++ [(st1.nextId, []), (st1.nextId + 1, [])],
           nextId := st1.nextId + 2,
           firstBuild := false },
       none)
    else
      ({ st1 with
           entries := st1.entries ++ [(process, st1.nextId, st1.nextId)],
           store := st1.store ++ [(st1.nextId, [])],
           nextId := st1.nextId + 1,
           firstBuild := false },
       some st1.nextId)

/-- rebuild (remoteindices.hh, lines 1181 to 1200). The discovery protocol
runs only when this is the first build, the ignorePublic flag differs from
the cached one, or the registry is out of sync; it then frees the old
lists, rebuilds the map and caches the sequence numbers and the flag. The
remote contributions of the other ranks are abstracted by the parameter
discover, a fixed function of the flag and the two index sets; the Bool
component of the result records whether message traffic happened. -/
def Registry.rebuild
    (discover : Bool → IndexSetModel → IndexSetModel →
      List (Int × Nat × Nat) × List (Nat × List RemoteIndex) × Nat)
    (ignorePublic : Bool) (st : Registry) : Registry × Bool :=
  if st.firstBuild || (ignorePublic != st.publicIgnored) || !st.isSynced then
    let st1 := st.free.1
    let d := discover ignorePublic st.source st.target
    ({ st1 with entries := d.1, store := d.2.1, nextId := d.2.2,
                sourceSeqNo_ := st.source.seqNo,
                destSeqNo_ := st.target.seqNo,
                firstBuild := false,
                publicIgnored := ignorePublic },
     true)
  else (st, false)

/-- The stable-mode RemoteIndexListModifier (remoteindices.hh, template
argument mode = false). The SLList modify cursor is embedded as a zipper:
the list is before ++ after and the cursor iter_ points at the head of
after (after = [] models iter_ == end_). Following the documented contract
of SLListModifyIterator in dune-common, insert places the new element in
front of the unchanged cursor position, remove unlinks the element at the
cursor and the cursor moves to the next one. -/
structure SModifier where
  before : List RemoteIndex
  after : List RemoteIndex
  first_ : Bool
  last_ : Nat
  deriving DecidableEq, Repr

/-- The list a stable-mode modifier currently edits. -/
def SModifier.list (m : SModifier) : List RemoteIndex :=
  m.before ++ m.after

/-- A fresh stable-mode modifier over a list (remoteindices.hh, lines 1264
to 1275): cursor at the front, first_ set; last_ is uninitialized in the
source and first_ guards every read of it, the embedding fixes it to 0. -/
def SModifier.fresh (l : List RemoteIndex) : SModifier :=
  { before := [], after := l, first_ := true, last_ := 0 }

/-- The cursor advance loop shared by stable-mode insert and remove:
while iter_ is not at the end and the record at the cursor refers to a
global id strictly below g, step the cursor. A record with a null back
reference makes the loop dereference a null pointer, modelled as `none`. -/
def advanceCursorLt (g : Nat) :
    List RemoteIndex → List RemoteIndex →
      Option (List RemoteIndex × List RemoteIndex)
  | bef, [] => some (bef, [])
  | bef, r :: rest =>
    match riGlobal r with
    | none => none
    | some gr =>
      if gr < g then advanceCursorLt g (bef ++ [r]) rest
      else some (bef, r :: rest)

/-- Stable-mode insert (remoteindices.hh, lines 1317 to 1338): out of
order insertion relative to last_ raises InvalidPosition before anything
is touched; otherwise the cursor advances to the first record with a
global id at least as large, the record is linked in front of the cursor,
and last_ records the inserted global id. The duplicate check of the
source is an assert and has no release-mode effect. -/
def SModifier.insert (m : SModifier) (index : RemoteIndex) :
    Option (SModifier × Except Unit Unit) :=
  match riGlobal index with
  | none => none
  | some gi =>
    if m.first_ = false ∧ gi < m.last_ then
      some (m, Except.error ())
    else
      match advanceCursorLt gi m.before m.after with
      | none => none
      | some ba =>
        some ({ before := ba.1 ++ [index], after := ba.2,
                first_ := false, last_ := gi },
              Except.ok ())

/-- Stable-mode remove (remoteindices.hh, lines 1365 to 1399, branch
MODIFYINDEXSET = false): out of order removal raises InvalidPosition
before anything is touched; otherwise the cursor advances and the record
at the cursor is compared against the requested global id without a
preceding end check, so reaching the end dereferences the end iterator,
modelled as `none`. When the ids match the record is unlinked. -/
def SModifier.remove (m : SModifier) (g : Nat) :
    Option (SModifier × Except Unit Bool) :=
  if m.first_ = false ∧ g < m.last_ then
    some (m, Except.error ())
  else
    match advanceCursorLt g m.before m.after with
    | none => none
    | some ba =>
      match ba.2 with
      | [] => none
      | r :: rest =>
        match riGlobal r with
        | none => none
        | some gr =>
          if gr = g then
            some ({ before := ba.1, after := rest,
                    first_ := false, last_ := g },
                  Except.ok true)
          else
            some ({ before := ba.1, after := r :: rest,
                    first_ := false, last_ := g },
                  Except.ok false)

/-- The mutable-mode RemoteIndexListModifier (mode = true): alongside the
remote index list it maintains the shadow list of global ids, embedded as
a second parallel zipper. -/
structure MModifier where
  before : List RemoteIndex
  after : List RemoteIndex
  gbefore : List Nat
  gafter : List Nat
  first_ : Bool
  last_ : Nat
  deriving DecidableEq, Repr

/-- The joint advance loop of the mutable-mode operations: while iter_ is
not at the end and the shadow entry at the cursor is strictly below g,
step both cursors. When the remote list cursor is not at its end but the
shadow cursor is, the source dereferences the shadow list past its end,
modelled as `none`. -/
def advanceJoint (g : Nat) :
    List RemoteIndex → List RemoteIndex → List Nat → List Nat →
      Option (List RemoteIndex × List RemoteIndex × List Nat × List Nat)
  | bef, [], gbef, gaft => some (bef, [], gbef, gaft)
  | bef, r :: rest, gbef, gaft =>
    match gaft with
    | [] => none
    | gg :: grest =>
      if gg < g then advanceJoint g (bef ++ [r]) rest (gbef ++ [gg]) grest
      else some (bef, r :: rest, gbef, gg :: grest)

/-- Mutable-mode insert (remoteindices.hh, lines 1340 to 1363): the order
check uses the explicitly passed global id; the record is linked in front
of the remote cursor and the global id in front of the shadow cursor. -/
def MModifier.insertG (m : MModifier) (index : RemoteIndex) (g : Nat) :
    Option (MModifier × Except Unit Unit) :=
  if m.first_ = false ∧ g < m.last_ then
    some (m, Except.error ())
  else
    match advanceJoint g m.before m.after m.gbefore m.gafter with
    | none => none
    | some st =>
      some ({ before := st.1 ++ [index], after := st.2.1,
              gbefore := st.2.2.1 ++ [g], gafter := st.2.2.2,
              first_ := false, last_ := g },
            Except.ok ())

/-- Mutable-mode remove (remoteindices.hh, lines 1365 to 1399, branch
MODIFYINDEXSET = true): after the joint advance the shadow entry at the
cursor is dereferenced without an end check, so an exhausted shadow list
is a fault; on a match both cursors unlink their element, where unlinking
at the end of the remote list is likewise a fault. -/
def MModifier.remove (m : MModifier) (g : Nat) :
    Option (MModifier × Except Unit Bool) :=
  if m.first_ = false ∧ g < m.last_ then
    some (m, Except.error ())
  else
    match advanceJoint g m.before m.after m.gbefore m.gafter with
    | none => none
    | some st =>
      match st.2.2.2, st.2.1 with
      | [], _ => none
      | gg :: grest, [] =>
        if gg = g then none
        else
          some ({ before := st.1, after := [],
                  gbefore := st.2.2.1, gafter := gg :: grest,
                  first_ := false, last_ := g },
                Except.ok false)
      | gg :: grest, r :: rest =>
        if gg = g then
          some ({ before := st.1, after := rest,
                  gbefore := st.2.2.1, gafter := grest,
                  first_ := false, last_ := g },
                Except.ok true)
        else
          some ({ before := st.1, after := r :: rest,
                  gbefore := st.2.2.1, gafter := gg :: grest,
                  first_ := false, last_ := g },
                Except.ok false)

/-- The CollectiveIterator state (remoteindices.hh, lines 595 to 745): the
map from rank to the cursor pair is embedded as an association list from
rank to the unconsumed suffix of that list, and index_ is the current
target global id. -/
structure CollIt where
  map_ : List (Int × List RemoteIndex)
  index_ : Nat
  deriving DecidableEq, Repr

/-- The per-peer loop of CollectiveIterator::advance (remoteindices.hh,
lines 1445 to 1446): step the cursor while it is not at its end and the
referenced local record has a global id strictly below the target. -/
def collAdvanceCursor (g : Nat) : List RemoteIndex → Option (List RemoteIndex)
  | [] => some []
  | r :: rest =>
    match riGlobal r with
    | none => none
    | some gr =>
      if gr < g then collAdvanceCursor g rest else some (r :: rest)

/-- CollectiveIterator::advance over the whole map (remoteindices.hh,
lines 1430 to 1456): each peer cursor is advanced and peers whose cursor
reached its end are erased from the map. -/
def collAdvanceAll (g : Nat) :
    List (Int × List RemoteIndex) → Option (List (Int × List RemoteIndex))
  | [] => some []
  | pc :: rest =>
    match collAdvanceCursor g pc.2 with
    | none => none
    | some c =>
      match collAdvanceAll g rest with
      | none => none
      | some tl => if c.isEmpty then some tl else some ((pc.1, c) :: tl)

/-- CollectiveIterator::advance: advance every cursor, drop exhausted
peers and record the target global id in index_. -/
def CollIt.advance (g : Nat) (it : CollIt) : Option CollIt :=
  match collAdvanceAll g it.map_ with
  | none => none
  | some m => some { map_ := m, index_ := g }

/-- The begin()/end() traversal of CollectiveIterator (remoteindices.hh,
lines 667 to 735): every map entry whose cursor references a record with
global id equal to index_ is yielded with its rank; the validity test
dereferences the cursor, so an empty cursor or a null back reference is a
fault. -/
def viewAux (g : Nat) :
    List (Int × List RemoteIndex) → Option (List (Int × RemoteIndex))
  | [] => some []
  | pc :: rest =>
    match pc.2 with
    | [] => none
    | r :: _ =>
      match riGlobal r with
      | none => none
      | some gr =>
        match viewAux g rest with
        | none => none
        | some tl => if gr = g then some ((pc.1, r) :: tl) else some tl

/-- The collective view: what one pass from begin() to end() yields. -/
def CollIt.view (it : CollIt) : Option (List (Int × RemoteIndex)) :=
  viewAux it.index_ it.map_

/-- Specification-side description of advance, following the words of the
spec: every cursor drops its records with global id strictly below the
target, and peers whose cursor is exhausted leave the working set. -/
def advanceSpec (g : Nat) (m : List (Int × List RemoteIndex)) :
    List (Int × List RemoteIndex) :=
  m.filterMap (fun pc =>
    let c := pc.2.dropWhile (fun r => riGlobalD r < g)
    if c.isEmpty then none else some (pc.1, c))

/-- Specification-side description of the iteration view, following the
words of the spec: exactly the peers whose cursor references a record with
global id equal to the target are yielded. -/
def viewSpec (g : Nat) (m : List (Int × List RemoteIndex)) :
    List (Int × RemoteIndex) :=
  m.filterMap (fun pc =>
    match pc.2 with
    | [] => none
    | r :: _ => if riGlobalD r = g then some (pc.1, r) else none)

theorem mem_of_mem_dropWhile {α : Type} (p : α → Bool) :
    ∀ (l : List α) (a : α), a ∈ l.dropWhile p → a ∈ l := by
  intro l
  induction l with
  | nil => intro a h; simp [List.dropWhile] at h
  | cons x xs ih =>
    intro a h
    by_cases hx : p x
    · rw [List.dropWhile_cons_of_pos hx] at h
      exact List.mem_cons_of_mem x (ih a h)
    · rw [List.dropWhile_cons_of_neg hx] at h
      exact h

theorem collAdvanceCursor_eq_dropWhile (g : Nat) (c : List RemoteIndex)
    (hv : ∀ r ∈ c, (r.localIndex_).isSome) :
    collAdvanceCursor g c = some (c.dropWhile (fun r => riGlobalD r < g)) := by
  induction c with
  | nil => simp [collAdvanceCursor]
  | cons r rest ih =>
    have hr : (r.localIndex_).isSome := hv r (by simp)
    obtain ⟨p, hp⟩ := Option.isSome_iff_exists.mp hr
    have hg : riGlobal r = some p.global := by simp [riGlobal, hp]
    have hgd : riGlobalD r = p.global := by simp [riGlobalD, hg]
    by_cases hlt : p.global < g
    · have := ih (fun x hx => hv x (List.mem_cons_of_mem r hx))
      simp [collAdvanceCursor, hg, hlt, List.dropWhile, hgd, this]
    · simp [collAdvanceCursor, hg, hlt, List.dropWhile, hgd]

theorem collAdvanceAll_eq (g : Nat) (m : List (Int × List RemoteIndex))
    (hv : ∀ pc ∈ m, ∀ r ∈ pc.2, (r.localIndex_).isSome) :
    collAdvanceAll g m = some (advanceSpec g m) := by
  induction m with
  | nil => simp [collAdvanceAll, advanceSpec]
  | cons pc rest ih =>
    have h1 := collAdvanceCursor_eq_dropWhile g pc.2 (hv pc (by simp))
    have h2 := ih (fun q hq r hr => hv q (List.mem_cons_of_mem pc hq) r hr)
    by_cases he : ∀ x ∈ pc.2, riGlobalD x < g
    · have he' : (∀ x ∈ pc.2, riGlobalD x < g) = True := eq_true he
      simp [collAdvanceAll, h1, h2, advanceSpec, he']
    · have he' : (∀ x ∈ pc.2, riGlobalD x < g) = False := eq_false he
      simp [collAdvanceAll, h1, h2, advanceSpec, he']

theorem viewAux_eq (g : Nat) (m : List (Int × List RemoteIndex))
    (hne : ∀ pc ∈ m, pc.2 ≠ [])
    (hv : ∀ pc ∈ m, ∀ r ∈ pc.2, (r.localIndex_).isSome) :
    viewAux g m = some (viewSpec g m) := by
  induction m with
  | nil => simp [viewAux, viewSpec]
  | cons pc rest ih =>
    obtain ⟨r, c, hc⟩ : ∃ r c, pc.2 = r :: c := by
      cases h : pc.2 with
      | nil => exact absurd h (hne pc (by simp))
      | cons r c => exact ⟨r, c, rfl⟩
    have hr : (r.localIndex_).isSome := by
      have := hv pc (by simp) r
      rw [hc] at this
      exact this (by simp)
    obtain ⟨p, hp⟩ := Option.isSome_iff_exists.mp hr
    have hg : riGlobal r = some p.global := by simp [riGlobal, hp]
    have hgd : riGlobalD r = p.global := by simp [riGlobalD, hg]
    have htl := ih (fun q hq => hne q (List.mem_cons_of_mem pc hq))
      (fun q hq x hx => hv q (List.mem_cons_of_mem pc hq) x hx)
    by_cases heq : p.global = g
    · simp [viewAux, hc, hg, htl, viewSpec, hgd, heq]
    · simp [viewAux, hc, hg, htl, viewSpec, hgd, heq]

theorem unpackIndicesOne_ne_nil (remote locals : List IndexPair) (g : Nat)
    (hr : g ∈ remote.map IndexPair.global)
    (hl : g ∈ locals.map IndexPair.global)
    (sr : List.Pairwise (fun a b => a.global < b.global) remote)
    (sl : List.Pairwise (fun a b => a.global < b.global) locals) :
    unpackIndicesOne remote locals ≠ [] := by
  induction remote, locals using unpackIndicesOne.induct with
  | case1 l => simp at hr
  | case2 i r => simp at hl
  | case3 index rtl lp ltl heq =>
    simp [unpackIndicesOne, heq]
  | case4 index rtl lp ltl hne hlt ih =>
    obtain ⟨hbl, sl'⟩ := List.pairwise_cons.mp sl
    obtain ⟨hbr, _⟩ := List.pairwise_cons.mp sr
    have hg : g ∈ ltl.map IndexPair.global := by
      obtain ⟨q, hq, hqg⟩ := List.mem_map.mp hl
      rcases List.mem_cons.mp hq with h | h
      · exfalso
        subst h
        obtain ⟨p, hp, hpg⟩ := List.mem_map.mp hr
        rcases List.mem_cons.mp hp with h2 | h2
        · subst h2; omega
        · have := hbr p h2
          omega
      · exact List.mem_map.mpr ⟨q, h, hqg⟩
    simp only [unpackIndicesOne, if_neg hne, if_pos hlt]
    exact ih hr hg sr sl'
  | case5 index rtl lp ltl hne hge ih =>
    obtain ⟨hbl, _⟩ := List.pairwise_cons.mp sl
    obtain ⟨hbr, sr'⟩ := List.pairwise_cons.mp sr
    have hg : g ∈ rtl.map IndexPair.global := by
      obtain ⟨p, hp, hpg⟩ := List.mem_map.mp hr
      rcases List.mem_cons.mp hp with h | h
      · exfalso
        subst h
        obtain ⟨q, hq, hqg⟩ := List.mem_map.mp hl
        rcases List.mem_cons.mp hq with h2 | h2
        · subst h2; omega
        · have := hbl q h2
          omega
      · exact List.mem_map.mpr ⟨p, h, hpg⟩
    simp only [unpackIndicesOne, if_neg hne, if_neg hge]
    exact ih hg hl sr' sl

/-- C9: a RemoteIndex built by the parameterless constructor or by the
attribute-only constructor holds a null back reference, so calling
localIndexPair() on such a record dereferences a null pointer (modelled as
`none`); only a record built from an explicit local index pair has a safe
localIndexPair() returning that pair. -/
theorem remoteIndex_null_backref :
    RemoteIndex.paramless.localIndexPair = none ∧
    (∀ a : Nat, (RemoteIndex.ofAttribute a).localIndexPair = none) ∧
    (∀ (a : Nat) (p : IndexPair),
      (RemoteIndex.ofAttributeAndLocal a p).localIndexPair = some p) :=
  ⟨rfl, fun _ => rfl, fun _ _ => rfl⟩

/-- C7: after any call to getModifier, whatever the direction flag and the
peer argument, the registry reports synced, because the cached sequence
numbers are set to the current sequence numbers of both index sets at the
start of getModifier in every path. -/
theorem getModifier_marks_synced (send : Bool) (st : Registry)
    (process : Int) :
    (Registry.getModifier send st process).1.isSynced = true := by
  unfold Registry.getModifier
  rcases hf : List.find? (fun e => e.1 == process) st.entries with _ | e
  · simp only [hf]
    by_cases hs : st.sameObject = false
    · simp [hs, Registry.isSynced]
    · simp [hs, Registry.isSynced]
  · simp [hf, Registry.isSynced]

theorem rebuild_run_state
    (discover : Bool → IndexSetModel → IndexSetModel →
      List (Int × Nat × Nat) × List (Nat × List RemoteIndex) × Nat)
    (ignorePublic : Bool) (st : Registry)
    (hb : (st.firstBuild || (ignorePublic != st.publicIgnored)
      || !st.isSynced) = true) :
    (Registry.rebuild discover ignorePublic st).1.firstBuild = false ∧
    (Registry.rebuild discover ignorePublic st).1.publicIgnored
      = ignorePublic ∧
    (Registry.rebuild discover ignorePublic st).1.isSynced = true := by
  unfold Registry.rebuild
  rw [if_pos hb]
  refine ⟨rfl, rfl, ?_⟩
  simp [Registry.free, Registry.isSynced]

/-- C3: rebuild runs the discovery protocol exactly when this is the first
build, the flag differs from the one of the last build, or the registry is
out of sync; and a second rebuild with the same flag, with no intervening
index set mutation, performs no message traffic and returns the registry
unchanged. -/
theorem rebuild_guard_and_idempotence
    (discover : Bool → IndexSetModel → IndexSetModel →
      List (Int × Nat × Nat) × List (Nat × List RemoteIndex) × Nat)
    (ignorePublic : Bool) (st : Registry) :
    ((Registry.rebuild discover ignorePublic st).2 =
      (st.firstBuild || (ignorePublic != st.publicIgnored) || !st.isSynced)) ∧
    Registry.rebuild discover ignorePublic
        (Registry.rebuild discover ignorePublic st).1 =
      ((Registry.rebuild discover ignorePublic st).1, false) := by
  constructor
  · by_cases hb : (st.firstBuild || (ignorePublic != st.publicIgnored)
        || !st.isSynced) = true
    · unfold Registry.rebuild
      rw [if_pos hb, hb]
    · have hb' : (st.firstBuild || (ignorePublic != st.publicIgnored)
          || !st.isSynced) = false := by simpa using hb
      unfold Registry.rebuild
      rw [if_neg hb, hb']
  · by_cases hb : (st.firstBuild || (ignorePublic != st.publicIgnored)
        || !st.isSynced) = true
    · obtain ⟨h1, h2, h3⟩ := rebuild_run_state discover ignorePublic st hb
      set st1 := (Registry.rebuild discover ignorePublic st).1 with hst1
      have hc : ¬((st1.firstBuild || (ignorePublic != st1.publicIgnored)
          || !st1.isSynced) = true) := by
        rw [h1, h2, h3]; simp
      unfold Registry.rebuild
      rw [if_neg hc]
    · have h0 : Registry.rebuild discover ignorePublic st = (st, false) := by
        unfold Registry.rebuild
        rw [if_neg hb]
      rw [h0]
      exact h0

/-- C8: teardown deletes each distinct list storage block exactly once
(one deletion for an entry whose send and receive lists are the same
block, two for an entry with distinct blocks, and no block is deleted
twice when no block is shared across entries), leaves the registry map
empty with neighbours() equal to 0, and marks the next build as the
first; setIndexSets goes through the same teardown. -/
theorem free_deletes_each_block_once (st : Registry)
    (hnodup : (st.entries.flatMap entryIds).Nodup) :
    (∀ i ∈ st.entries.flatMap entryIds, st.free.2.count i = 1) ∧
    (∀ e ∈ st.entries,
      (e.2.1 = e.2.2 → entryIds e = [e.2.1]) ∧
      (e.2.1 ≠ e.2.2 → entryIds e = [e.2.1, e.2.2])) ∧
    st.free.1.entries = [] ∧
    st.free.1.neighbours = 0 ∧
    st.free.1.firstBuild = true ∧
    (∀ (source target : IndexSetModel) (sameObject : Bool),
      (st.setIndexSets source target sameObject).1.entries = [] ∧
      (st.setIndexSets source target sameObject).1.firstBuild = true) := by
  refine ⟨?_, ?_, rfl, rfl, rfl, fun _ _ _ => ⟨rfl, rfl⟩⟩
  · intro i hi
    exact List.count_eq_one_of_mem hnodup hi
  · intro e _
    exact ⟨fun h => by simp [entryIds, h], fun h => by simp [entryIds, h]⟩

/-- Concrete registry used to witness the teardown theorem: one entry with
a shared list block and one entry with two distinct blocks. -/
def regW : Registry :=
  { source := ⟨[], 0⟩, target := ⟨[], 0⟩, sameObject := true,
    sourceSeqNo_ := 0, destSeqNo_ := 0, publicIgnored := false,
    firstBuild := false, entries := [(0, 0, 0), (1, 1, 2)],
    store := [(0, []), (1, []), (2, [])], nextId := 3 }

theorem free_deletes_each_block_once_witness :
    regW.free.2.count 1 = 1 ∧ regW.free.1.entries = [] ∧
    regW.free.1.neighbours = 0 :=
  ⟨(free_deletes_each_block_once regW (by decide)).1 1 (by decide),
   (free_deletes_each_block_once regW (by decide)).2.2.1,
   (free_deletes_each_block_once regW (by decide)).2.2.2.1⟩

/-- C4: an insert or remove through a modifier whose global id is smaller
than the global id of the last touched record raises InvalidPosition
(modelled as the error result), and the modifier state, hence the remote
index list, is returned unchanged: the check precedes every mutation, in
both modifier modes and for both insert overloads. -/
theorem modifier_out_of_order_raises (ms : SModifier) (mm : MModifier)
    (index : RemoteIndex) (p : IndexPair) (g : Nat)
    (hsf : ms.first_ = false) (hmf : mm.first_ = false)
    (hip : index.localIndex_ = some p)
    (hpl : p.global < ms.last_) (hgs : g < ms.last_) (hgm : g < mm.last_) :
    ms.insert index = some (ms, Except.error ()) ∧
    ms.remove g = some (ms, Except.error ()) ∧
    mm.insertG index g = some (mm, Except.error ()) ∧
    mm.remove g = some (mm, Except.error ()) := by
  refine ⟨?_, ?_, ?_, ?_⟩
  · simp [SModifier.insert, riGlobal, hip, hsf, hpl]
  · simp [SModifier.remove, hsf, hgs]
  · simp [MModifier.insertG, hmf, hgm]
  · simp [MModifier.remove, hmf, hgm]

/-- Concrete data for the out-of-order witness. -/
def pairW4 : IndexPair := ⟨3, ⟨0, 1, true⟩⟩

def idxW4 : RemoteIndex := ⟨1, some pairW4⟩

def msW4 : SModifier := ⟨[], [], false, 5⟩

def mmW4 : MModifier := ⟨[], [], [], [], false, 5⟩

theorem modifier_out_of_order_raises_witness :
    msW4.insert idxW4 = some (msW4, Except.error ()) ∧
    msW4.remove 3 = some (msW4, Except.error ()) ∧
    mmW4.insertG idxW4 3 = some (mmW4, Except.error ()) ∧
    mmW4.remove 3 = some (mmW4, Except.error ()) :=
  modifier_out_of_order_raises msW4 mmW4 idxW4 pairW4 3 rfl rfl rfl
    (by decide) (by decide) (by decide)

/-- Concrete data for the insert-then-remove round trip: a list holding
the single record for global id 3, into which the record for global id 1
is inserted and then removed through the same modifier. -/
def pairG3 : IndexPair := ⟨3, ⟨0, 1, true⟩⟩

def pairG1 : IndexPair := ⟨1, ⟨1, 1, true⟩⟩

def recG3 : RemoteIndex := ⟨1, some pairG3⟩

def recG1 : RemoteIndex := ⟨1, some pairG1⟩

/-- C5: inserting (G, attribute) and then immediately calling remove(G) on
the same modifier does not restore the list. The insert links the new
record in front of the unchanged cursor, so the subsequent remove scans
only from the cursor onwards, never sees the record just inserted, returns
false and leaves it in the list: the final list is the two-element list,
not the original one-element one. -/
theorem insert_then_remove_keeps_record :
    (SModifier.fresh [recG3]).insert recG1 =
      some (⟨[recG1], [recG3], false, 1⟩, Except.ok ()) ∧
    SModifier.remove ⟨[recG1], [recG3], false, 1⟩ 1 =
      some (⟨[recG1], [recG3], false, 1⟩, Except.ok false) ∧
    SModifier.list ⟨[recG1], [recG3], false, 1⟩ ≠
      SModifier.list (SModifier.fresh [recG3]) := by
  refine ⟨rfl, rfl, by decide⟩

/-- Concrete registry with distinct source and target index sets and no
entry for peer 1 yet. -/
def regD : Registry :=
  { source := ⟨[], 0⟩, target := ⟨[], 1⟩, sameObject := false,
    sourceSeqNo_ := -1, destSeqNo_ := -1, publicIgnored := false,
    firstBuild := true, entries := [], store := [], nextId := 0 }

/-- C2: with distinct source and target index sets, getModifier for an
absent peer does create the new entry with two distinct fresh empty lists,
but the returned modifier is built by dereferencing the stale end iterator
(the source never refreshes `found` in this branch), so it is positioned
over no list of the new entry: the second component is `none` instead of
one of the two fresh block ids. -/
theorem getModifier_new_peer_distinct_sets_no_list :
    (Registry.getModifier true regD 1).1.entries = [(1, 0, 1)] ∧
    (Registry.getModifier true regD 1).1.store = [(0, []), (1, [])] ∧
    (Registry.getModifier true regD 1).2 = none := by
  refine ⟨by decide, by decide, by decide⟩

/-- Concrete probe arrays and received stream for the two-list unpack: the
local source publishes global id 5 only, the local target publishes global
ids 1 and 5, and the peer sent the single merged record for global id 5. -/
def srcP5 : IndexPair := ⟨5, ⟨0, 2, true⟩⟩

def dstP1 : IndexPair := ⟨1, ⟨0, 3, true⟩⟩

def dstP5 : IndexPair := ⟨5, ⟨1, 4, true⟩⟩

def remP5 : IndexPair := ⟨5, ⟨7, 9, true⟩⟩

/-- C1: in the two-list unpack the send record correctly references the
matching local source record for global id 5, but the receive record is
built from localDest[sourceIndex] with sourceIndex = 0 instead of
localDest[destIndex] with destIndex = 1, so its back reference points at
the local target record with global id 1, not at the matched target
record with the unpacked global id 5. -/
theorem unpackIndicesTwo_receive_wrong_backref :
    (unpackIndicesTwo [srcP5] [dstP1, dstP5] [remP5] 0 0).1 =
      [{ attribute_ := 9, localIndex_ := some srcP5 }] ∧
    (unpackIndicesTwo [srcP5] [dstP1, dstP5] [remP5] 0 0).2 =
      [{ attribute_ := 9, localIndex_ := some dstP1 }] ∧
    dstP1.global ≠ remP5.global := by
  have h : unpackIndicesTwo [srcP5] [dstP1, dstP5] [remP5] 0 0 =
      ([{ attribute_ := 9, localIndex_ := some srcP5 }],
       [{ attribute_ := 9, localIndex_ := some dstP1 }]) := by
    simp [unpackIndicesTwo, advanceIdx, srcP5, dstP1, dstP5, remP5]
  exact ⟨by rw [h], by rw [h], by decide⟩

/-- C6: advance(G) forwards each peer cursor while the referenced local
record has a global id strictly below G, drops every peer whose cursor
reached its end, records G as the current target id, and the subsequent
begin()/end() pass yields exactly those remaining peers whose cursor
references a record with global id equal to G. -/
theorem collectiveIterator_advance_and_view (it : CollIt) (g : Nat)
    (hv : ∀ pc ∈ it.map_, ∀ r ∈ pc.2, (r.localIndex_).isSome) :
    CollIt.advance g it = some ⟨advanceSpec g it.map_, g⟩ ∧
    CollIt.view ⟨advanceSpec g it.map_, g⟩ =
      some (viewSpec g (advanceSpec g it.map_)) := by
  have hall := collAdvanceAll_eq g it.map_ hv
  have hmem : ∀ pc ∈ advanceSpec g it.map_,
      pc.2 ≠ [] ∧ ∀ r ∈ pc.2, (r.localIndex_).isSome := by
    intro pc hpc
    obtain ⟨q, hq, hsome⟩ := List.mem_filterMap.mp hpc
    dsimp only at hsome
    split at hsome
    · exact absurd hsome (by simp)
    · next he =>
      obtain rfl : (q.1, q.2.dropWhile (fun r => riGlobalD r < g)) = pc :=
        Option.some.inj hsome
      refine ⟨fun hnil => he (by rw [List.isEmpty_iff]; exact hnil), ?_⟩
      intro r hr
      exact hv q hq r (mem_of_mem_dropWhile _ q.2 r hr)
  constructor
  · simp [CollIt.advance, hall]
  · exact viewAux_eq g (advanceSpec g it.map_)
      (fun pc hpc => (hmem pc hpc).1) (fun pc hpc => (hmem pc hpc).2)

/-- One cursor record with a valid back reference to global id g, used by
the collective iterator witness. -/
def cRec (g : Nat) : RemoteIndex := ⟨0, some ⟨g, ⟨0, 0, true⟩⟩⟩

/-- The collective iterator of the literal spec scenario: two peers with
lists over global ids 1, 3, 7 and 3, 5, 7. -/
def itW : CollIt :=
  ⟨[(1, [cRec 1, cRec 3, cRec 7]), (2, [cRec 3, cRec 5, cRec 7])], 0⟩

theorem collectiveIterator_advance_and_view_witness :
    CollIt.advance 3 itW = some ⟨advanceSpec 3 itW.map_, 3⟩ ∧
    CollIt.view ⟨advanceSpec 3 itW.map_, 3⟩ =
      some (viewSpec 3 (advanceSpec 3 itW.map_)) :=
  collectiveIterator_advance_and_view itW 3 (by decide)

/-- C10: with distinct source and target index sets the discovery protocol
performs its hop-0 exchange with the own rank, so whenever the local
source and target sets share a published global id the built registry
carries an entry keyed by the own rank: the peers seen by begin()/end()
and counted by neighbours() then include the process itself. -/
theorem buildSelf_registers_own_rank (ignorePublic : Bool) (rank : Int)
    (source target : IndexSetModel) (g : Nat)
    (hs : List.Pairwise (fun a b => a.global < b.global) source.pairs)
    (ht : List.Pairwise (fun a b => a.global < b.global) target.pairs)
    (hgs : g ∈ (packedEntries ignorePublic source).map IndexPair.global)
    (hgt : g ∈ (packedEntries ignorePublic target).map IndexPair.global) :
    (buildSelf ignorePublic rank source target).map Prod.fst = [rank] := by
  have hsp : List.Pairwise (fun a b => a.global < b.global)
      (packedEntries ignorePublic source) :=
    List.Pairwise.filter _ hs
  have htp : List.Pairwise (fun a b => a.global < b.global)
      (packedEntries ignorePublic target) :=
    List.Pairwise.filter _ ht
  have hrec := unpackIndicesOne_ne_nil (packedEntries ignorePublic source)
    (packedEntries ignorePublic target) g hgs hgt hsp htp
  unfold buildSelf
  rw [if_neg]
  · rfl
  · intro hcon
    exact hrec hcon.1

/-- Source index set of the self-exchange witness: published global ids 1
and 3. -/
def srcW : IndexSetModel := ⟨[⟨1, ⟨0, 0, true⟩⟩, ⟨3, ⟨1, 0, true⟩⟩], 0⟩

/-- Target index set of the self-exchange witness: published global ids 2
and 3, sharing global id 3 with the source set. -/
def tgtW : IndexSetModel := ⟨[⟨2, ⟨0, 0, true⟩⟩, ⟨3, ⟨1, 0, true⟩⟩], 1⟩

theorem buildSelf_registers_own_rank_witness :
    (buildSelf false 0 srcW tgtW).map Prod.fst = [(0 : Int)] :=
  buildSelf_registers_own_rank false 0 srcW tgtW 3 (by decide) (by decide)
    (by decide) (by decide)
